import Mathlib

/-!
Verification of the profile-chain region resolver
(`aws/rust-runtime/aws-config/src/profile/region.rs`) and the
`OperationExtension` response-extension type
(`rust-runtime/aws-smithy-http-server/src/extension.rs`).

The `Profile` / `ProfileSet` data model is built by the external loader
and is not part of the excerpt; it is modelled from the specification
(spec §3).  The resolver itself is translated from the source.
-/

namespace Smithy

/-- Modelled from the spec: a Profile is "an immutable named bag of string
key/value settings" (§3); the repository's `Profile` type lives in the
parser module, outside the excerpt.  Settings are a key-to-value mapping,
insertion order irrelevant; lookup returns the value of the first matching
key. -/
structure Profile where
  name : String
  settings : List (String × String)
deriving DecidableEq

/-- Rust `Profile::get(key)`: read a setting, `none` when the key is absent. -/
def Profile.get (p : Profile) (key : String) : Option String :=
  (p.settings.find? (fun kv => kv.1 == key)).map (fun kv => kv.2)

/-- Modelled from the spec: a ProfileSet is "a mapping from profile name to
Profile (keys unique), plus a `selected_profile` name" (§3); built by the
external loader, outside the excerpt. -/
structure ProfileSet where
  profiles : List Profile
  selected : String
deriving DecidableEq

/-- Rust `ProfileSet::is_empty()`: true iff the mapping has zero entries (§3). -/
def ProfileSet.is_empty (ps : ProfileSet) : Bool :=
  ps.profiles.isEmpty

/-- Rust `ProfileSet::selected_profile()`: the designated selected-profile name. -/
def ProfileSet.selected_profile (ps : ProfileSet) : String :=
  ps.selected

/-- Rust `ProfileSet::get_profile(name)`: the Profile, or "not found"; absence is
a normal outcome, not an error (§3). -/
def ProfileSet.get_profile (ps : ProfileSet) (name : String) : Option Profile :=
  ps.profiles.find? (fun p => p.name == name)

/-- Rust `aws_types::region::Region`: a wrapper around the region string. -/
structure Region where
  value : String
deriving DecidableEq

/-- Rust `Region::new`. -/
def Region.new (s : String) : Region :=
  ⟨s⟩

/-- The `loop` of `resolve_profile_chain_for_region` (region.rs lines
113-148), fuel-indexed so that each unit of fuel is one loop iteration.
`none` means the fuel ran out before the loop returned; `some r` means the
loop returned `r`.  The requested key generalizes the hardcoded `"region"`,
following the spec's contract `resolve(profile_set, override_name, key)`
(§4.1); the source instantiates it at `"region"` only. -/
def resolveLoop (ps : ProfileSet) (key : String) :
    Nat → String → List String → Option (Option String)
  | 0, _, _ => none
  | fuel + 1, selected_profile, visited_profiles =>
    match ps.get_profile selected_profile with
    | none => some none
    | some profile =>
      -- Check to see if we're in a loop and return if that's true.
      if visited_profiles.contains selected_profile then
        some none
      else
        -- Else, add the profile we're currently checking to the visited list.
        let visited_profiles := visited_profiles ++ [selected_profile]
        match profile.get key, profile.get "source_profile" with
        -- Profile had the key, return its value
        | some v, _ => some (some v)
        -- No key; source_profile is self-referential so return to avoid an
        -- infinite loop
        | none, some source_profile =>
          if source_profile == selected_profile then
            some none
          else
            -- check the source profile in the next loop iteration
            resolveLoop ps key fuel source_profile visited_profiles
        -- No key, no source_profile: return empty-handed
        | none, none => some none

/-- Source `resolve_profile_chain_for_region` generalized over the requested key
(region.rs lines 102-149).  The loop is run with fuel `N + 1` for `N`
profiles; `resolveLoop_isSome` proves the fuel never runs out, so the
final `getD none` is never what produces the answer. -/
def resolve_profile_chain (ps : ProfileSet) (profile_override : Option String)
    (key : String) : Option String :=
  if ps.is_empty then
    none
  else
    let selected_profile := profile_override.getD ps.selected_profile
    (resolveLoop ps key (ps.profiles.length + 1) selected_profile []).getD none

/-- Source `resolve_profile_chain_for_region(profile_set, profile_override)`
(region.rs lines 102-149): resolve the `"region"` key through the
source_profile chain, wrapping the found string with `Region::new`. -/
def resolve_profile_chain_for_region (ps : ProfileSet)
    (profile_override : Option String) : Option Region :=
  (resolve_profile_chain ps profile_override "region").map Region.new

/-! ### The variant resolver without the self-reference fast path -/

/-- Modelled from the spec: the loop of a reimplementation that drops the
"source_profile equals current name" fast path (§9: "Reimplementations may
drop it for simplicity with identical observable behavior"), relying on
the visited-set check one iteration later.  Identical to `resolveLoop`
except that a key-less profile with a `source_profile` entry always
continues the chain. -/
def resolveLoopNoSelfCheck (ps : ProfileSet) (key : String) :
    Nat → String → List String → Option (Option String)
  | 0, _, _ => none
  | fuel + 1, selected_profile, visited_profiles =>
    match ps.get_profile selected_profile with
    | none => some none
    | some profile =>
      if visited_profiles.contains selected_profile then
        some none
      else
        let visited_profiles := visited_profiles ++ [selected_profile]
        match profile.get key, profile.get "source_profile" with
        | some v, _ => some (some v)
        | none, some source_profile =>
          resolveLoopNoSelfCheck ps key fuel source_profile visited_profiles
        | none, none => some none

/-- Modelled from the spec: the variant resolver built on
`resolveLoopNoSelfCheck` (§9); same emptiness check, starting profile and
fuel as `resolve_profile_chain`. -/
def resolve_chain_no_self_check (ps : ProfileSet)
    (profile_override : Option String) (key : String) : Option String :=
  if ps.is_empty then
    none
  else
    let selected_profile := profile_override.getD ps.selected_profile
    (resolveLoopNoSelfCheck ps key (ps.profiles.length + 1) selected_profile
      []).getD none

/-! ### The Provider layer -/

/-- Source `ProfileFileRegionProvider::region` (region.rs lines 92-99), with the
call to the external loader abstracted by its outcome: a parse error (the
message string) or a loaded ProfileSet.  `.map_err(|err| tracing::warn!(..))
.ok()?` discards an error after logging, producing "not found"; the
logging side effect is not part of the returned value and is not
modelled. -/
def ProfileFileRegionProvider.region (load_result : Except String ProfileSet)
    (profile_override : Option String) : Option Region :=
  match load_result with
  | Except.error _ => none
  | Except.ok profile_set =>
    resolve_profile_chain_for_region profile_set profile_override

/-! ### OperationExtension (extension.rs) -/

/-- Source `OperationExtension` (extension.rs lines 59-64): the Smithy model
namespace and operation name stored in response extensions.  The Rust
field `namespace` is a Lean keyword, hence the quoted field name. -/
structure OperationExtension where
  «namespace» : String
  operation_name : String
deriving DecidableEq

/-- Source `OperationExtension::new` (extension.rs lines 68-73). -/
def OperationExtension.new (ns : String) (operation_name : String) :
    OperationExtension :=
  ⟨ns, operation_name⟩

/-- Source `OperationExtension::operation` (extension.rs lines 76-78): the current
operation formatted as `<namespace>#<operation_name>`. -/
def OperationExtension.operation (e : OperationExtension) : String :=
  e.namespace ++ "#" ++ e.operation_name

/-! ### Concrete profile sets used by the examples and witnesses -/

/-- The empty profile set: no profiles, conventional selected name. -/
def emptyPS : ProfileSet :=
  ⟨[], "default"⟩

/-- The two-profile cycle from the spec: profiles `a → b → a` by mutual
`source_profile`, neither holding the `region` key. -/
def cyclePS : ProfileSet :=
  ⟨[⟨"a", [("source_profile", "b")]⟩, ⟨"b", [("source_profile", "a")]⟩], "a"⟩

/-- A single self-referential profile `p` with `source_profile = p` and no
`region` key. -/
def selfPS : ProfileSet :=
  ⟨[⟨"p", [("source_profile", "p")]⟩], "p"⟩

/-- The chain example from the spec and the source's
`load_region_from_source_profile` test: `needs-source` points at
`credentials`, which holds `region = us-east-1`. -/
def chainPS : ProfileSet :=
  ⟨[⟨"credentials",
      [("aws_access_key_id", "test-access-key-id"),
       ("aws_secret_access_key", "test-secret-access-key"),
       ("aws_session_token", "test-session-token"),
       ("region", "us-east-1")]⟩,
    ⟨"needs-source",
      [("source_profile", "credentials"),
       ("role_arn", "arn:aws:iam::123456789012:role/test")]⟩],
   "default"⟩

/-- A set whose selected profile `default` has no region, while profile
`base` holds `region = us-east-1` (the source's `region_override` test
data shape). -/
def overridePS : ProfileSet :=
  ⟨[⟨"default", [("name", "default")]⟩, ⟨"base", [("region", "us-east-1")]⟩],
   "default"⟩

/-- A set whose starting profile holds both the requested key and a
`source_profile` entry naming another profile that holds a different
value. -/
def regardPS : ProfileSet :=
  ⟨[⟨"start", [("region", "us-west-2"), ("source_profile", "other")]⟩,
    ⟨"other", [("region", "eu-west-1")]⟩],
   "start"⟩

/-! ### Termination of the loop -/

/-- Every name pushed onto the visited list names an existing profile, and
the list stays duplicate-free, so with fuel `N + 1` for `N` profiles the
loop always returns before the fuel runs out. -/
theorem resolveLoop_isSome (ps : ProfileSet) (key : String) :
    ∀ (fuel : Nat) (visited : List String) (selected : String),
      visited.Nodup →
      (∀ n ∈ visited, n ∈ ps.profiles.map Profile.name) →
      ps.profiles.length + 1 ≤ fuel + visited.length →
      (resolveLoop ps key fuel selected visited).isSome := by
  intro fuel
  induction fuel with
  | zero =>
    intro visited selected hnd hsub hlen
    exfalso
    have h1 : visited.length ≤ (ps.profiles.map Profile.name).length :=
      (hnd.subperm fun n hn => hsub n hn).length_le
    rw [List.length_map] at h1
    omega
  | succ fuel ih =>
    intro visited selected hnd hsub hlen
    rw [resolveLoop]
    cases hget : ps.get_profile selected with
    | none => simp
    | some profile =>
      by_cases hc : visited.contains selected
      · have hmem : selected ∈ visited := by simpa using hc
        simp [hmem]
      · have hmem : selected ∉ visited := by
          simpa using hc
        have hname : selected ∈ ps.profiles.map Profile.name := by
          have h1 := List.mem_of_find?_eq_some hget
          have h2 := List.find?_some hget
          exact List.mem_map.mpr ⟨profile, h1, by simpa using h2⟩
        simp only [hc, if_false]
        cases hk : profile.get key with
        | some v => simp
        | none =>
          cases hs : profile.get "source_profile" with
          | none => simp
          | some source_profile =>
            by_cases hself : (source_profile == selected) = true
            · simp [hself]
            · simp only [hself, if_false]
              apply ih
              · simp [List.nodup_append, hnd, hmem]
              · intro n hn
                rcases List.mem_append.mp hn with h | h
                · exact hsub n h
                · rw [List.mem_singleton.mp h]; exact hname
              · simp only [List.length_append, List.length_singleton]
                omega

/-- The loop reads its ProfileSet only through `get_profile`, so it does
not depend on the `selected` field. -/
theorem resolveLoop_profiles_congr (ps ps' : ProfileSet) (key : String)
    (h : ps.profiles = ps'.profiles) :
    ∀ (fuel : Nat) (selected : String) (visited : List String),
      resolveLoop ps key fuel selected visited
        = resolveLoop ps' key fuel selected visited := by
  intro fuel
  induction fuel with
  | zero => intro s v; rfl
  | succ fuel ih =>
    intro s v
    have hg : ps'.get_profile s = ps.get_profile s := by
      simp [ProfileSet.get_profile, h]
    rw [resolveLoop, resolveLoop, hg]
    cases hget : ps.get_profile s with
    | none => rfl
    | some profile =>
      by_cases hc : v.contains s = true
      · simp only [if_pos hc]
      · simp only [if_neg hc]
        cases hk : profile.get key with
        | some w => rfl
        | none =>
          cases hs : profile.get "source_profile" with
          | none => rfl
          | some source_profile =>
            by_cases hself : (source_profile == s) = true
            · simp only [if_pos hself]
            · simp only [if_neg hself]
              exact ih source_profile (v ++ [s])

/-! ### Equivalence of the variant with the actual loop -/

/-- When the current name was already visited, one more iteration of the
variant loop returns "not found" (this is the iteration the fast path
short-circuits). -/
theorem resolveLoopNoSelfCheck_visited (ps : ProfileSet) (key : String)
    (fuel : Nat) (s : String) (v : List String)
    (hv : v.contains s = true) :
    resolveLoopNoSelfCheck ps key (fuel + 1) s v = some none := by
  rw [resolveLoopNoSelfCheck]
  cases hget : ps.get_profile s with
  | none => rfl
  | some profile => simp only [if_pos hv]

/-- With the same fuel budget `N + 1`, the variant loop and the actual
loop agree: the fast path only saves the one revisit iteration. -/
theorem resolveLoop_noSelfCheck_eq (ps : ProfileSet) (key : String) :
    ∀ (fuel : Nat) (visited : List String) (selected : String),
      visited.Nodup →
      (∀ n ∈ visited, n ∈ ps.profiles.map Profile.name) →
      ps.profiles.length + 1 ≤ fuel + visited.length →
      resolveLoopNoSelfCheck ps key fuel selected visited
        = resolveLoop ps key fuel selected visited := by
  intro fuel
  induction fuel with
  | zero => intro visited selected _ _ _; rfl
  | succ fuel ih =>
    intro visited selected hnd hsub hlen
    rw [resolveLoop, resolveLoopNoSelfCheck]
    cases hget : ps.get_profile selected with
    | none => rfl
    | some profile =>
      by_cases hc : visited.contains selected = true
      · simp only [if_pos hc]
      · simp only [if_neg hc]
        have hmem : selected ∉ visited := by
          simpa using hc
        have hname : selected ∈ ps.profiles.map Profile.name := by
          have h1 := List.mem_of_find?_eq_some hget
          have h2 := List.find?_some hget
          exact List.mem_map.mpr ⟨profile, h1, by simpa using h2⟩
        have hless : visited.length + 1 ≤ ps.profiles.length := by
          have hnd' : (visited ++ [selected]).Nodup := by
            simp [List.nodup_append, hnd, hmem]
          have hsub' : visited ++ [selected] ⊆ ps.profiles.map Profile.name := by
            intro n hn
            rcases List.mem_append.mp hn with h | h
            · exact hsub n h
            · rw [List.mem_singleton.mp h]; exact hname
          have := (hnd'.subperm hsub').length_le
          simpa using this
        cases hk : profile.get key with
        | some v => rfl
        | none =>
          cases hs : profile.get "source_profile" with
          | none => rfl
          | some source_profile =>
            by_cases hself : (source_profile == selected) = true
            · simp only [if_pos hself]
              have hsel : source_profile = selected := by
                simpa using hself
              obtain ⟨fuel', rfl⟩ : ∃ f, fuel = f + 1 := by
                rcases fuel with _ | f
                · omega
                · exact ⟨f, rfl⟩
              rw [hsel]
              exact resolveLoopNoSelfCheck_visited ps key fuel' selected
                (visited ++ [selected]) (by simp)
            · simp only [if_neg hself]
              apply ih
              · simp [List.nodup_append, hnd, hmem]
              · intro n hn
                rcases List.mem_append.mp hn with h | h
                · exact hsub n h
                · rw [List.mem_singleton.mp h]; exact hname
              · simp only [List.length_append, List.length_singleton]
                omega

/-! ### The claims -/

/-- Claim C1: for every ProfileSet and every override name,
`resolve_profile_chain_for_region` terminates: its loop, given fuel
`N + 1` for a set of `N` profiles, returns before the fuel runs out, so
the resolver completes within at most `N + 1` iterations; in particular
the cyclic chain `a → b → a` (mutual `source_profile`, neither holding
the key) resolves to "not found" instead of looping forever. -/
theorem resolve_region_terminates_within_bound :
    (∀ (ps : ProfileSet) (profile_override : Option String),
      (resolveLoop ps "region" (ps.profiles.length + 1)
        (profile_override.getD ps.selected_profile) []).isSome)
    ∧ resolve_profile_chain_for_region cyclePS none = none := by
  constructor
  · intro ps profile_override
    apply resolveLoop_isSome
    · exact List.nodup_nil
    · intro n hn
      cases hn
    · simp
  · decide

/-- Claim C2: whenever the starting profile (the override when present,
otherwise the selected profile) of a non-empty ProfileSet itself defines
`region`, the resolver returns that profile's value, with no assumption
on whether the profile also names a `source_profile` or on what that
entry says. -/
theorem resolve_region_start_profile_key_wins (ps : ProfileSet)
    (profile_override : Option String) (p : Profile) (v : String)
    (hne : ps.is_empty = false)
    (hget : ps.get_profile (profile_override.getD ps.selected_profile) = some p)
    (hv : p.get "region" = some v) :
    resolve_profile_chain_for_region ps profile_override
      = some (Region.new v) := by
  simp only [resolve_profile_chain_for_region, resolve_profile_chain]
  rw [if_neg (by simp [hne])]
  rw [resolveLoop, hget]
  simp only [List.contains_nil, Bool.false_eq_true, if_false, hv]
  rfl

/-- Witness for C2 at a profile holding both `region = us-west-2` and a
`source_profile` entry naming a profile with a different region. -/
theorem resolve_region_start_profile_key_wins_witness :
    resolve_profile_chain_for_region regardPS (some "start")
      = some (Region.new "us-west-2") :=
  resolve_region_start_profile_key_wins regardPS (some "start")
    ⟨"start", [("region", "us-west-2"), ("source_profile", "other")]⟩
    "us-west-2" (by decide) (by decide) (by decide)

/-- Claim C3: a supplied override name replaces the ProfileSet's selected
profile as the starting point — the result does not depend on the
`selected` field at all — and when no profile with the override name
exists, the result is "not found". -/
theorem resolve_region_override_precedence (ps : ProfileSet)
    (name s' : String) :
    resolve_profile_chain_for_region ⟨ps.profiles, s'⟩ (some name)
        = resolve_profile_chain_for_region ps (some name)
    ∧ (ps.get_profile name = none →
        resolve_profile_chain_for_region ps (some name) = none) := by
  constructor
  · rw [resolve_profile_chain_for_region, resolve_profile_chain,
      resolve_profile_chain_for_region, resolve_profile_chain]
    have hcongr := resolveLoop_profiles_congr ⟨ps.profiles, s'⟩ ps "region" rfl
    simp only [ProfileSet.is_empty, Option.getD_some, hcongr]
  · intro hget
    rw [resolve_profile_chain_for_region, resolve_profile_chain]
    by_cases hemp : ps.is_empty = true
    · simp [hemp]
    · rw [if_neg hemp]
      simp only [Option.getD_some]
      rw [resolveLoop, hget]
      rfl

/-- Witness for C3: a nonexistent override name yields "not found" on a
set whose profiles would otherwise resolve, independently of the selected
name. -/
theorem resolve_region_override_precedence_witness :
    resolve_profile_chain_for_region ⟨overridePS.profiles, "base"⟩
        (some "doesnotexist")
      = resolve_profile_chain_for_region overridePS (some "doesnotexist")
    ∧ resolve_profile_chain_for_region overridePS (some "doesnotexist")
        = none :=
  ⟨(resolve_region_override_precedence overridePS "doesnotexist" "base").1,
   (resolve_region_override_precedence overridePS "doesnotexist" "base").2
     (by decide)⟩

/-- Claim C4: chain inheritance — `needs-source` has
`source_profile = credentials` and no `region` key, `credentials` has
`region = us-east-1`, and resolving `region` starting at `needs-source`
yields `us-east-1`. -/
theorem resolve_region_chain_example :
    resolve_profile_chain_for_region chainPS (some "needs-source")
      = some (Region.new "us-east-1") := by
  decide

/-- Claim C5: an empty ProfileSet resolves to "not found" for every
requested key and every override. -/
theorem resolve_empty_set_not_found (ps : ProfileSet)
    (profile_override : Option String) (key : String)
    (h : ps.is_empty = true) :
    resolve_profile_chain ps profile_override key = none
    ∧ resolve_profile_chain_for_region ps profile_override = none := by
  constructor
  · rw [resolve_profile_chain, if_pos h]
  · rw [resolve_profile_chain_for_region, resolve_profile_chain, if_pos h]
    rfl

/-- Witness for C5 at the empty set, an override naming a profile, and
the `region` key. -/
theorem resolve_empty_set_not_found_witness :
    resolve_profile_chain emptyPS (some "base") "region" = none
    ∧ resolve_profile_chain_for_region emptyPS (some "base") = none :=
  resolve_empty_set_not_found emptyPS (some "base") "region" (by decide)

/-- Claim C6: a profile whose `source_profile` names itself and which does
not define `region` resolves to "not found"; no error is raised (the
return type carries no error case). -/
theorem resolve_region_self_reference_not_found (ps : ProfileSet)
    (name : String) (p : Profile)
    (hget : ps.get_profile name = some p)
    (hr : p.get "region" = none)
    (hs : p.get "source_profile" = some name) :
    resolve_profile_chain_for_region ps (some name) = none := by
  have hne : ps.is_empty = false := by
    rcases hps : ps.profiles with _ | ⟨q, qs⟩
    · rw [ProfileSet.get_profile, hps] at hget
      simp at hget
    · simp [ProfileSet.is_empty, hps]
  simp only [resolve_profile_chain_for_region, resolve_profile_chain]
  rw [if_neg (by simp [hne])]
  simp only [Option.getD_some]
  rw [resolveLoop, hget]
  simp only [List.contains_nil, Bool.false_eq_true, if_false, hr, hs,
    beq_self_eq_true, if_pos]
  rfl

/-- Witness for C6 at the one-profile set `p` with `source_profile = p`. -/
theorem resolve_region_self_reference_not_found_witness :
    resolve_profile_chain_for_region selfPS (some "p") = none :=
  resolve_region_self_reference_not_found selfPS "p"
    ⟨"p", [("source_profile", "p")]⟩ (by decide) (by decide) (by decide)

/-- Claim C7: the resolver is a deterministic function of the ProfileSet
and the override (equal inputs give equal results; Lean functions cannot
mutate their arguments), its result is always either "not found" or a
value — there is no error case — and each failure mode (empty set,
missing profile, self-reference, cycle) produces the same `none`. -/
theorem resolve_region_pure_uniform_failure :
    (∀ (ps₁ ps₂ : ProfileSet) (o₁ o₂ : Option String), ps₁ = ps₂ → o₁ = o₂ →
      resolve_profile_chain_for_region ps₁ o₁
        = resolve_profile_chain_for_region ps₂ o₂)
    ∧ (∀ (ps : ProfileSet) (o : Option String),
        resolve_profile_chain_for_region ps o = none
        ∨ ∃ r : Region, resolve_profile_chain_for_region ps o = some r)
    ∧ resolve_profile_chain_for_region emptyPS none = none
    ∧ resolve_profile_chain_for_region overridePS (some "doesnotexist") = none
    ∧ resolve_profile_chain_for_region selfPS (some "p") = none
    ∧ resolve_profile_chain_for_region cyclePS none = none := by
  refine ⟨?_, ?_, by decide, by decide, by decide, by decide⟩
  · rintro ps _ o _ rfl rfl
    rfl
  · intro ps o
    rcases h : resolve_profile_chain_for_region ps o with _ | r
    · exact Or.inl rfl
    · exact Or.inr ⟨r, rfl⟩

/-- Witness for C7: determinism applied at a concrete input. -/
theorem resolve_region_pure_uniform_failure_witness :
    resolve_profile_chain_for_region cyclePS none
      = resolve_profile_chain_for_region cyclePS none :=
  resolve_region_pure_uniform_failure.1 cyclePS cyclePS none none rfl rfl

/-- Claim C8: the variant resolver with the self-reference fast path
removed is observationally equivalent to the actual resolver on every
ProfileSet, override name and key; in particular the two agree on the
`region` resolution. -/
theorem resolve_region_self_check_redundant :
    (∀ (ps : ProfileSet) (profile_override : Option String) (key : String),
      resolve_chain_no_self_check ps profile_override key
        = resolve_profile_chain ps profile_override key)
    ∧ ∀ (ps : ProfileSet) (profile_override : Option String),
      (resolve_chain_no_self_check ps profile_override "region").map Region.new
        = resolve_profile_chain_for_region ps profile_override := by
  have hmain : ∀ (ps : ProfileSet) (o : Option String) (key : String),
      resolve_chain_no_self_check ps o key = resolve_profile_chain ps o key := by
    intro ps o key
    simp only [resolve_chain_no_self_check, resolve_profile_chain]
    by_cases hemp : ps.is_empty = true
    · simp [hemp]
    · rw [if_neg hemp, if_neg hemp]
      rw [resolveLoop_noSelfCheck_eq ps key (ps.profiles.length + 1) []]
      · exact List.nodup_nil
      · intro n hn
        cases hn
      · simp
  refine ⟨hmain, fun ps o => ?_⟩
  rw [resolve_profile_chain_for_region, hmain]

/-- Claim C9: when the external loader fails to parse, the Provider's
region operation returns "not found", the same observable outcome as
resolving over an empty configuration set. -/
theorem provider_region_downgrades_parse_error (err : String)
    (profile_override : Option String) :
    ProfileFileRegionProvider.region (Except.error err) profile_override = none
    ∧ ProfileFileRegionProvider.region (Except.error err) profile_override
        = ProfileFileRegionProvider.region (Except.ok emptyPS)
            profile_override := by
  exact ⟨rfl, rfl⟩

/-- Claim C10: `OperationExtension::new(n, o).operation()` is exactly
`n ++ "#" ++ o`, and the stored namespace and operation name are the
constructor arguments unchanged (the structure is immutable: no operation
in the excerpt modifies it after construction). -/
theorem operation_extension_formats_operation (ns op : String) :
    (OperationExtension.new ns op).operation = ns ++ "#" ++ op
    ∧ (OperationExtension.new ns op).namespace = ns
    ∧ (OperationExtension.new ns op).operation_name = op :=
  ⟨rfl, rfl, rfl⟩

end Smithy
